import Mathlib

/-!
Verification of the vector-store / command-lifecycle core of the
obsidian-integration-plugin-for-chatgpt repository.

The Python source is shallowly embedded:
* `models/models.py` pydantic models become Lean structures; optional fields
  become `Option`.
* Python's dynamic JSON-ish values (dicts, lists, tuples, enum members,
  datetimes, None) are embedded as the inductive `PyVal`.  Dicts are ordered
  association lists, matching Python's insertion-ordered dicts.
* Floating-point payloads (embeddings, similarity scores) are opaque to every
  property considered here, so they are represented by `Int` carriers; the
  `float(...)` cast in `_query` is the identity on this carrier.
* `datetime.isoformat` is an injective rendering of a timestamp to a string;
  it is embedded as the function `isoformat` below.  Nothing proved here
  depends on the concrete format, only on the fact that the result is a
  string value.
* Fallible backend calls are passed in as `Except`-valued functions; a Python
  `raise` is `Except.error`, and `try/except` is a `match` on that value.
* `services/date.to_unix_timestamp` is code of the repository outside the
  provided sources; operations that use it take a `toUnix : String → Int`
  argument, and no property proved here depends on its behaviour.
-/

/-- `models.Source` (str enum). -/
inductive Source where
  | EMAIL
  | FILE
  | CHAT
deriving DecidableEq, Repr

/-- `Source.value`: the underlying string of the str-enum member. -/
def Source.value : Source → String
  | .EMAIL => "EMAIL"
  | .FILE => "FILE"
  | .CHAT => "CHAT"

/-- `models.CommandStatus` (str enum). -/
inductive CommandStatus where
  | NEW
  | PROCESSING
  | COMPLETED
  | ABANDONED
  | ERROR
deriving DecidableEq, Repr

/-- `CommandStatus.value`. -/
def CommandStatus.value : CommandStatus → String
  | .NEW => "NEW"
  | .PROCESSING => "PROCESSING"
  | .COMPLETED => "COMPLETED"
  | .ABANDONED => "ABANDONED"
  | .ERROR => "ERROR"

/-- `models.CommandType` (str enum). -/
inductive CommandType where
  | CREATE_NOTE
  | MODIFY_NOTE
  | DELETE_NOTE
deriving DecidableEq, Repr

/-- `CommandType.value`. -/
def CommandType.value : CommandType → String
  | .CREATE_NOTE => "CREATE_NOTE"
  | .MODIFY_NOTE => "MODIFY_NOTE"
  | .DELETE_NOTE => "DELETE_NOTE"

/-- `models.DocumentMetadata`. -/
structure DocumentMetadata where
  source : Option Source := none
  source_id : Option String := none
  url : Option String := none
  created_at : Option String := none
  author : Option String := none
deriving DecidableEq, Repr

/-- `models.DocumentChunkMetadata` (`DocumentMetadata` plus `document_id`). -/
structure DocumentChunkMetadata where
  source : Option Source := none
  source_id : Option String := none
  url : Option String := none
  created_at : Option String := none
  author : Option String := none
  document_id : Option String := none
deriving DecidableEq, Repr

/-- `models.DocumentChunk`; embedding components are opaque scalars. -/
structure DocumentChunk where
  id : Option String := none
  text : String
  metadata : DocumentChunkMetadata
  embedding : Option (List Int) := none
deriving DecidableEq, Repr

/-- `models.DocumentMetadataFilter`. -/
structure DocumentMetadataFilter where
  document_id : Option String := none
  source : Option Source := none
  source_id : Option String := none
  author : Option String := none
  start_date : Option String := none
  end_date : Option String := none
deriving DecidableEq, Repr

/-- `models.QueryWithEmbedding` (a `Query` plus its embedding vector). -/
structure QueryWithEmbedding where
  query : String
  filter : Option DocumentMetadataFilter := none
  top_k : Option Int := some 3
  embedding : List Int
deriving DecidableEq, Repr

/-- `models.DocumentChunkWithScore` (a `DocumentChunk` plus `score`). -/
structure DocumentChunkWithScore where
  id : Option String := none
  text : String
  metadata : DocumentChunkMetadata
  embedding : Option (List Int) := none
  score : Int
deriving DecidableEq, Repr

/-- `models.QueryResult`. -/
structure QueryResult where
  query : String
  results : List DocumentChunkWithScore
deriving DecidableEq, Repr

/-- `models.Command`. -/
structure Command where
  id : Option String := none
  status : CommandStatus := .NEW
  errors : Option String := none
  created_at : Option String := none
  updated_at : Option String := none
deriving DecidableEq, Repr

/-- `models.CommandContent`. -/
structure CommandContent where
  text : String
  metadata : DocumentMetadata
deriving DecidableEq, Repr

/-- `models.CommandWithContent` (a `Command` plus `type` and `content`). -/
structure CommandWithContent where
  id : Option String := none
  status : CommandStatus := .NEW
  errors : Option String := none
  created_at : Option String := none
  updated_at : Option String := none
  type : CommandType
  content : CommandContent
deriving DecidableEq, Repr

/-! ## Embedded Python values -/

/-- A Python value as it travels between the datastore layer and the backend
client: `None`, scalars, str-enum members (carrying their `.value` string),
`datetime` objects (carrying their timestamp), tuples, lists and dicts. -/
inductive PyVal where
  | pynone
  | pystr (s : String)
  | pyint (n : Int)
  | pybool (b : Bool)
  | pyenum (v : String)
  | pydatetime (t : Int)
  | pytuple (xs : List PyVal)
  | pylist (xs : List PyVal)
  | pydict (kvs : List (String × PyVal))

/-- The Python identity test `v is None`. -/
def isPyNone : PyVal → Bool
  | .pynone => true
  | _ => false

/-- `datetime.isoformat`, abstracted to an injective rendering function. -/
def isoformat (t : Int) : String := "1970-01-01T00:00:" ++ toString t

/-- Dict key lookup (`json["k"]` presence test / access): first binding wins,
as in a Python dict where keys are unique. -/
def lookupKV (kvs : List (String × PyVal)) (k : String) : Option PyVal :=
  match kvs with
  | [] => none
  | (k', v) :: rest => if k' = k then some v else lookupKV rest k

/-- Dict key assignment `json["k"] = v` for a key already present. -/
def setKV (kvs : List (String × PyVal)) (k : String) (v : PyVal) :
    List (String × PyVal) :=
  match kvs with
  | [] => []
  | (k', v') :: rest =>
      if k' = k then (k', v) :: setKV rest k v else (k', v') :: setKV rest k v

/-- Python truthiness of an optional string: `None` and `""` are falsy. -/
def truthyStr : Option String → Bool
  | none => false
  | some s => decide (s ≠ "")

/-- Python truthiness of an optional int (`top_k`): `None` and `0` are falsy. -/
def truthyInt : Option Int → Bool
  | none => false
  | some n => decide (n ≠ 0)

/-- Python truthiness of an optional bool (`delete_all`). -/
def truthyBool : Option Bool → Bool
  | none => false
  | some b => b

/-- Python truthiness of an optional list (`ids`): `None` and `[]` are falsy. -/
def truthyList : Option (List String) → Bool
  | none => false
  | some [] => false
  | some (_ :: _) => true

/-- An optional string as transmitted in a row dict (`None` stays `None`). -/
def optStr : Option String → PyVal
  | none => .pynone
  | some s => .pystr s

/-! ## Serialization adapter
`SupabaseClient._convert_object_to_serializable_json`
(`supabase_datastore.py` lines 55-63): dicts recurse dropping `None`-valued
keys, lists recurse, enum members become their `.value`, and everything else
(tuples included — a tuple is not a Python `list`) passes through unchanged. -/

mutual

/-- `SupabaseClient._convert_object_to_serializable_json`. -/
def _convert_object_to_serializable_json : PyVal → PyVal
  | .pydict kvs => .pydict (_convert_kvs kvs)
  | .pylist xs => .pylist (_convert_list xs)
  | .pyenum v => .pystr v
  | x => x

/-- The dict comprehension branch: drop `None` values, convert the rest. -/
def _convert_kvs : List (String × PyVal) → List (String × PyVal)
  | [] => []
  | (k, v) :: rest =>
      if isPyNone v then _convert_kvs rest
      else (k, _convert_object_to_serializable_json v) :: _convert_kvs rest

/-- The list comprehension branch: convert every element. -/
def _convert_list : List PyVal → List PyVal
  | [] => []
  | v :: rest => _convert_object_to_serializable_json v :: _convert_list rest

end

mutual

/-- A value is backend-serializable if no enum member and no `None`-valued
dict field is reachable through dicts and lists (tuples are opaque to the
adapter and are not inspected). -/
def serializedOk : PyVal → Bool
  | .pydict kvs => serializedOkKVs kvs
  | .pylist xs => serializedOkList xs
  | .pyenum _ => false
  | _ => true

/-- Dict entries: no `None` values, all values serializable. -/
def serializedOkKVs : List (String × PyVal) → Bool
  | [] => true
  | (_, v) :: rest =>
      !isPyNone v && serializedOk v && serializedOkKVs rest

/-- List elements: all serializable (a bare `None` list element is allowed:
the adapter only drops `None` from dicts). -/
def serializedOkList : List PyVal → Bool
  | [] => true
  | v :: rest => serializedOk v && serializedOkList rest

end

mutual

/-- Does a timestamp (`datetime`) value survive anywhere inside a value? -/
def hasTimestamp : PyVal → Bool
  | .pydatetime _ => true
  | .pytuple xs => hasTimestampList xs
  | .pylist xs => hasTimestampList xs
  | .pydict kvs => hasTimestampKVs kvs
  | _ => false

/-- `hasTimestamp` over list elements. -/
def hasTimestampList : List PyVal → Bool
  | [] => false
  | v :: rest => hasTimestamp v || hasTimestampList rest

/-- `hasTimestamp` over dict entries. -/
def hasTimestampKVs : List (String × PyVal) → Bool
  | [] => false
  | (_, v) :: rest => hasTimestamp v || hasTimestampKVs rest

end

/-! ## SupabaseClient (`supabase_datastore.py`)
The concrete backend client.  The network call `...execute()` is passed in as
an `Except`-valued function so that transport errors can be injected. -/

/-- The `created_at` special case in `SupabaseClient.upsert` (lines 47-48):
`json["created_at"] = json["created_at"][0].isoformat()`.  The stored value
is the one-element tuple built by `PgVectorDataStore._upsert`; indexing it
and calling `isoformat` succeeds only on a tuple whose first element is a
`datetime`, and raises (`TypeError`/`AttributeError`) on anything else. -/
def fixCreatedAt (kvs : List (String × PyVal)) :
    Except String (List (String × PyVal)) :=
  match lookupKV kvs "created_at" with
  | none => .ok kvs
  | some (.pytuple (PyVal.pydatetime t :: _)) =>
      .ok (setKV kvs "created_at" (.pystr (isoformat t)))
  | some _ => .error "created_at value cannot be indexed and isoformatted"

/-- `SupabaseClient.upsert` (lines 37-53): serialize the payload, isoformat a
top-level `created_at`, then run the backend call inside `try/except` — a
transport error is logged and swallowed, never re-raised.  Returns the
transmitted payload together with the log lines produced. -/
def supabaseUpsert (execute : List (String × PyVal) → Except String Unit)
    (json : List (String × PyVal)) :
    Except String (List (String × PyVal) × List String) :=
  match fixCreatedAt (_convert_kvs json) with
  | .error e => .error e
  | .ok fixed =>
      match execute fixed with
      | .ok _ => .ok (fixed, [])
      | .error e => .ok (fixed, ["Got exception in supabase_datastore.py: " ++ e])

/-- `SupabaseClient.update` (lines 65-72): serialize the payload and run the
backend update keyed on `json["id"]`; there is no `try/except` here, so a
transport error propagates.  Returns the transmitted payload. -/
def supabaseUpdate
    (execute : List (String × PyVal) → PyVal → Except String Unit)
    (json : List (String × PyVal)) : Except String (List (String × PyVal)) :=
  match lookupKV (_convert_kvs json) "id" with
  | none => .error "KeyError: id"
  | some idv =>
      match execute (_convert_kvs json) idv with
      | .ok _ => .ok (_convert_kvs json)
      | .error e => .error e

/-- One predicate of the Supabase delete builder chain. -/
inductive DeletePred where
  | eqPred (column : String) (v : PyVal)
  | gtePred (column : String) (v : PyVal)
  | ltePred (column : String) (v : PyVal)

/-- `SupabaseClient.delete_by_filters` (lines 107-133): chain an `eq`
predicate for each truthy equality field.  The date branches evaluate
`filter.start_date[0].isoformat()` where `start_date` is a plain string
(`models.DocumentMetadataFilter`), so a truthy date bound raises
`AttributeError` (a one-character string has no `isoformat`) before the
builder is executed; no predicate set reaches the backend in that case. -/
def delete_by_filters (f : DocumentMetadataFilter) :
    Except String (List DeletePred) :=
  if truthyStr f.start_date then
    .error "AttributeError: str object has no attribute isoformat"
  else if truthyStr f.end_date then
    .error "AttributeError: str object has no attribute isoformat"
  else
    .ok ((if truthyStr f.document_id then
            [DeletePred.eqPred "document_id" (optStr f.document_id)] else []) ++
         (match f.source with
          | some s => [DeletePred.eqPred "source" (.pyenum s.value)]
          | none => []) ++
         (if truthyStr f.source_id then
            [DeletePred.eqPred "source_id" (optStr f.source_id)] else []) ++
         (if truthyStr f.author then
            [DeletePred.eqPred "author" (optStr f.author)] else []))

/-! ## PgVectorDataStore (`pgvector_datastore.py`)
The backend-agnostic facade over an abstract `PGClient`. -/

/-- The row dict built for one chunk in `PgVectorDataStore._upsert`
(lines 100-115).  `created_at` is only added when the metadata field is
truthy, and its value is the one-element tuple
`(datetime.fromtimestamp(to_unix_timestamp(created_at)),)`. -/
def chunkRow (toUnix : String → Int) (document_id : String)
    (chunk : DocumentChunk) : List (String × PyVal) :=
  [("id", optStr chunk.id),
   ("content", .pystr chunk.text),
   ("embedding",
     match chunk.embedding with
     | none => PyVal.pynone
     | some xs => .pylist (xs.map PyVal.pyint)),
   ("document_id", .pystr document_id),
   ("source",
     match chunk.metadata.source with
     | none => PyVal.pynone
     | some s => .pyenum s.value),
   ("source_id", optStr chunk.metadata.source_id),
   ("url", optStr chunk.metadata.url),
   ("author", optStr chunk.metadata.author)] ++
  (match chunk.metadata.created_at with
   | some s =>
       if s = "" then []
       else [("created_at", .pytuple [.pydatetime (toUnix s)])]
   | none => [])

/-- The inner loop of `_upsert`: one `client.upsert("documents", json)` call
per chunk; an error from the client call propagates immediately. -/
def upsertChunks (clientUpsert : String → List (String × PyVal) → Except String Unit)
    (toUnix : String → Int) (document_id : String) :
    List DocumentChunk → Except String Unit
  | [] => .ok ()
  | c :: rest =>
      match clientUpsert "documents" (chunkRow toUnix document_id c) with
      | .error e => .error e
      | .ok _ => upsertChunks clientUpsert toUnix document_id rest

/-- The outer loop of `_upsert` over the document-id → chunks dict. -/
def upsertDocs (clientUpsert : String → List (String × PyVal) → Except String Unit)
    (toUnix : String → Int) :
    List (String × List DocumentChunk) → Except String Unit
  | [] => .ok ()
  | (d, cs) :: rest =>
      match upsertChunks clientUpsert toUnix d cs with
      | .error e => .error e
      | .ok _ => upsertDocs clientUpsert toUnix rest

/-- `PgVectorDataStore._upsert` (lines 93-118): write every chunk of every
document, then return the list of document ids.  No `try/except`: any client
error propagates to the caller. -/
def _upsert (clientUpsert : String → List (String × PyVal) → Except String Unit)
    (toUnix : String → Int) (chunks : List (String × List DocumentChunk)) :
    Except String (List String) :=
  match upsertDocs clientUpsert toUnix chunks with
  | .error e => .error e
  | .ok _ => .ok (chunks.map Prod.fst)

/-- A conditional single-entry piece of a params dict (`if cond: params[k]=v`). -/
def optEntry (c : Bool) (name : String) (v : PyVal) : List (String × PyVal) :=
  if c then [(name, v)] else []

/-- The filter part of the rpc params dict in `_query` (lines 132-148): one
named parameter per truthy filter field. -/
def filterParams (toUnix : String → Int) (f : DocumentMetadataFilter) :
    List (String × PyVal) :=
  optEntry (truthyStr f.document_id) "in_document_id" (optStr f.document_id) ++
  (match f.source with
   | some s => [("in_source", PyVal.pystr s.value)]
   | none => []) ++
  optEntry (truthyStr f.source_id) "in_source_id" (optStr f.source_id) ++
  optEntry (truthyStr f.author) "in_author" (optStr f.author) ++
  (match f.start_date with
   | some s =>
       if s = "" then [] else [("in_start_date", PyVal.pydatetime (toUnix s))]
   | none => []) ++
  (match f.end_date with
   | some s =>
       if s = "" then [] else [("in_end_date", PyVal.pydatetime (toUnix s))]
   | none => [])

/-- The full rpc params dict for one query in `_query` (lines 127-148):
`in_embedding` always, `in_match_count` when `top_k` is truthy, then the
filter parameters when a filter object is present. -/
def buildQueryParams (toUnix : String → Int) (q : QueryWithEmbedding) :
    List (String × PyVal) :=
  [("in_embedding", .pylist (q.embedding.map PyVal.pyint))] ++
  optEntry (truthyInt q.top_k) "in_match_count"
    (match q.top_k with | some n => .pyint n | none => .pynone) ++
  (match q.filter with
   | some f => filterParams toUnix f
   | none => [])

/-- A row returned by the `match_page_sections` stored procedure. -/
structure Row where
  id : String
  content : String
  similarity : Int
  source : Option Source
  source_id : Option String
  document_id : Option String
  url : Option String
  created_at : Option String
  author : Option String
deriving DecidableEq, Repr

/-- The field-for-field row mapping in `_query` (lines 153-169); the
`float(...)` cast is the identity on the opaque score carrier, and the
embedding assignment is commented out in the source, so it stays `None`. -/
def rowToChunk (row : Row) : DocumentChunkWithScore :=
  { id := some row.id,
    text := row.content,
    metadata :=
      { source := row.source,
        source_id := row.source_id,
        document_id := row.document_id,
        url := row.url,
        created_at := row.created_at,
        author := row.author },
    embedding := none,
    score := row.similarity }

/-- Processing of a single query as `_query` performs it inside its loop:
call the rpc, map rows on success; on any exception log it and record an
empty result for this query. -/
def processOneQuery (rpc : List (String × PyVal) → Except String (List Row))
    (toUnix : String → Int) (q : QueryWithEmbedding) :
    QueryResult × List String :=
  match rpc (buildQueryParams toUnix q) with
  | .ok data => ({ query := q.query, results := data.map rowToChunk }, [])
  | .error e => ({ query := q.query, results := [] }, [e])

/-- `PgVectorDataStore._query` (lines 120-174): the loop over the query
batch, accumulating one `QueryResult` per query and the error log lines. -/
def _query (rpc : List (String × PyVal) → Except String (List Row))
    (toUnix : String → Int) :
    List QueryWithEmbedding → List QueryResult × List String
  | [] => ([], [])
  | q :: rest =>
      let head :=
        match rpc (buildQueryParams toUnix q) with
        | .ok data =>
            (({ query := q.query, results := data.map rowToChunk } : QueryResult),
             ([] : List String))
        | .error e => (({ query := q.query, results := [] } : QueryResult), [e])
      let tail := _query rpc toUnix rest
      (head.1 :: tail.1, head.2 ++ tail.2)

/-- One backend delete capability call of `PGClient`. -/
inductive DeleteCall where
  | delete_like (table column pattern : String)
  | delete_in (table column : String) (ids : List String)
  | delete_by_filters (table : String) (f : DocumentMetadataFilter)

/-- Run one backend delete call inside the `try/except` of `delete`:
an exception yields `False`, success falls through to `return True`. -/
def runDeleteCall (backend : DeleteCall → Except String Unit) (c : DeleteCall) :
    Bool × List DeleteCall :=
  match backend c with
  | .ok _ => (true, [c])
  | .error _ => (false, [c])

/-- `PgVectorDataStore.delete` (lines 176-202): `if delete_all: ...
elif ids: ... elif filter: ...` with Python truthiness, each branch in its
own `try/except: return False`, and `return True` otherwise.  Returns the
success flag and the backend calls issued. -/
def delete (backend : DeleteCall → Except String Unit)
    (ids : Option (List String)) (filter : Option DocumentMetadataFilter)
    (delete_all : Option Bool) : Bool × List DeleteCall :=
  if truthyBool delete_all then
    runDeleteCall backend (.delete_like "documents" "document_id" "%")
  else
    match ids with
    | some (i :: rest) =>
        runDeleteCall backend (.delete_in "documents" "document_id" (i :: rest))
    | _ =>
        match filter with
        | some f => runDeleteCall backend (.delete_by_filters "documents" f)
        | none => (true, [])

/-- `PgVectorDataStore.get_command` (lines 215-224): ask the backend for the
row with the given id projected to the bare `Command` fields; `if data:`
returns a `Command` built from the first row, else `None`.  The pydantic
reconstruction `Command(**data[0])` is the identity on the projected
fields, so rows are carried directly as `Command` values. -/
def get_command (data : List Command) : Option Command :=
  match data with
  | [] => none
  | r :: _ => some r

/-- `PgVectorDataStore.create_command` (lines 204-213): assign a fresh
server-generated id to the command (the source mutates `command.id`), write
it, and return the id. -/
def create_command (uuid : String) (cmd : CommandWithContent) :
    CommandWithContent × String :=
  ({ cmd with id := some uuid }, uuid)

/-! ## Command Lifecycle Manager (`local_server/main.py`, `create_command`
endpoint, lines 79-107)
Time is idealized: status fetches are instantaneous and each
`asyncio.sleep(5)` advances the clock by exactly 5 time units, so the
elapsed time at the k-th poll is `5 * k`.  The backend is abstracted as a
function from elapsed time to the `Command` row currently stored. -/

/-- The fixed timeout failure message of the endpoint (line 100). -/
def abandonedMessage : String :=
  "Command was abandoned due to timeout. Check Obsidian connection"

/-- The response produced by the endpoint (`CommandResponse`). -/
structure CommandResponse where
  id : String
  errors : Option String
deriving DecidableEq, Repr

/-- An observable effect of the polling loop: a status fetch
(`datastore.get_command`), a suspension (`asyncio.sleep`), or a write
(`datastore.update_command`). -/
inductive PollEvent where
  | fetch (elapsed : Nat)
  | sleep (duration : Nat)
  | update (c : CommandWithContent)
deriving DecidableEq, Repr

/-- The outcome of the polling loop: the HTTP response returned and the
trace of effects performed after command creation. -/
structure PollResult where
  response : CommandResponse
  events : List PollEvent
deriving DecidableEq, Repr

/-- The `while True:` polling loop of the `/commands` endpoint (lines
86-103), started at a given elapsed time since `start_time`:
fetch the command; on `COMPLETED` return success with no error; on `ERROR`
return failure with the command's recorded errors; otherwise, past the fixed
20-unit deadline, issue one `update_command` with status `ABANDONED` and
return the fixed timeout message; otherwise sleep 5 units and repeat. -/
def pollLoop (fetch : Nat → Command) (id : String) (cmd : CommandWithContent)
    (elapsed : Nat) : PollResult :=
  if (fetch elapsed).status = CommandStatus.COMPLETED then
    { response := { id := id, errors := none },
      events := [PollEvent.fetch elapsed] }
  else if (fetch elapsed).status = CommandStatus.ERROR then
    { response := { id := id, errors := (fetch elapsed).errors },
      events := [PollEvent.fetch elapsed] }
  else if elapsed > 20 then
    { response := { id := id, errors := some abandonedMessage },
      events := [PollEvent.fetch elapsed,
                 PollEvent.update { cmd with status := CommandStatus.ABANDONED }] }
  else
    let rest := pollLoop fetch id cmd (elapsed + 5)
    { response := rest.response,
      events := PollEvent.fetch elapsed :: PollEvent.sleep 5 :: rest.events }
termination_by 21 - elapsed
decreasing_by simp_wf; omega

/-- The `update_command` writes contained in an effect trace. -/
def updatesOf (events : List PollEvent) : List CommandWithContent :=
  events.filterMap (fun e =>
    match e with
    | .update c => some c
    | _ => none)

/-- The sleep durations contained in an effect trace. -/
def sleepsOf (events : List PollEvent) : List Nat :=
  events.filterMap (fun e =>
    match e with
    | .sleep d => some d
    | _ => none)

/-! ## Sample concrete inputs used by witnesses -/

/-- A backend that always reports the command as `NEW`. -/
def constNewFetch : Nat → Command :=
  fun _ => { id := some "c1", status := .NEW, errors := none,
             created_at := none, updated_at := none }

/-- A backend that always reports the command as `COMPLETED`. -/
def constCompletedFetch : Nat → Command :=
  fun _ => { id := some "c1", status := .COMPLETED, errors := none,
             created_at := none, updated_at := none }

/-- A backend that always reports the command as `ERROR` with a message. -/
def constErrorFetch : Nat → Command :=
  fun _ => { id := some "c1", status := .ERROR, errors := some "boom",
             created_at := none, updated_at := none }

/-- A sample command request payload. -/
def sampleCmd : CommandWithContent :=
  { id := some "c1", status := .NEW, errors := none,
    created_at := none, updated_at := none,
    type := .CREATE_NOTE,
    content := { text := "note body", metadata := {} } }

/-! ## Poll-loop lemmas -/

/-- When no poll ever observes a terminal backend status, the loop reaches
the deadline branch: bounded induction on the remaining time budget. -/
theorem pollLoop_timeout_aux (fetch : Nat → Command) (id : String)
    (cmd : CommandWithContent)
    (h : ∀ t, (fetch t).status ≠ CommandStatus.COMPLETED ∧
              (fetch t).status ≠ CommandStatus.ERROR) :
    ∀ n elapsed, 21 - elapsed ≤ n →
      (pollLoop fetch id cmd elapsed).response =
        { id := id, errors := some abandonedMessage } ∧
      updatesOf (pollLoop fetch id cmd elapsed).events =
        [{ cmd with status := CommandStatus.ABANDONED }] ∧
      ∀ d, d ∈ sleepsOf (pollLoop fetch id cmd elapsed).events → d = 5 := by
  intro n
  induction n with
  | zero =>
      intro elapsed he
      have h20 : elapsed > 20 := by omega
      rw [pollLoop, if_neg (h elapsed).1, if_neg (h elapsed).2, if_pos h20]
      refine ⟨rfl, rfl, ?_⟩
      intro d hd
      simp [sleepsOf] at hd
  | succ n ih =>
      intro elapsed he
      rw [pollLoop, if_neg (h elapsed).1, if_neg (h elapsed).2]
      by_cases h20 : elapsed > 20
      · rw [if_pos h20]
        refine ⟨rfl, rfl, ?_⟩
        intro d hd
        simp [sleepsOf] at hd
      · rw [if_neg h20]
        obtain ⟨h1, h2, h3⟩ := ih (elapsed + 5) (by omega)
        refine ⟨h1, ?_, ?_⟩
        · simpa [updatesOf, List.filterMap_cons] using h2
        · intro d hd
          simp only [sleepsOf, List.filterMap_cons] at hd h3 ⊢
          simp only [List.mem_cons] at hd
          rcases hd with hd | hd
        

          · exact hd
          · exact h3 d hd

/-- C1: for every created command whose fetched status is never `COMPLETED`
nor `ERROR`, the polling loop started at the recorded start time returns a
failure carrying the fixed "abandoned due to timeout" message, issues
exactly one `update_command` call transitioning the command to `ABANDONED`,
and every suspension before that is the fixed 5-time-unit interval. -/
theorem c1_timeout_abandons_once (fetch : Nat → Command) (id : String)
    (cmd : CommandWithContent)
    (h : ∀ t, (fetch t).status ≠ CommandStatus.COMPLETED ∧
              (fetch t).status ≠ CommandStatus.ERROR) :
    (pollLoop fetch id cmd 0).response =
      { id := id, errors := some abandonedMessage } ∧
    updatesOf (pollLoop fetch id cmd 0).events =
      [{ cmd with status := CommandStatus.ABANDONED }] ∧
    ∀ d, d ∈ sleepsOf (pollLoop fetch id cmd 0).events → d = 5 :=
  pollLoop_timeout_aux fetch id cmd h 21 0 (by omega)

/-- Witness for C1 at a backend that always reports `NEW`. -/
theorem c1_timeout_abandons_once_witness :
    (∀ t, (constNewFetch t).status ≠ CommandStatus.COMPLETED ∧
          (constNewFetch t).status ≠ CommandStatus.ERROR) ∧
    ((pollLoop constNewFetch "c1" sampleCmd 0).response =
      { id := "c1", errors := some abandonedMessage } ∧
     updatesOf (pollLoop constNewFetch "c1" sampleCmd 0).events =
      [{ sampleCmd with status := CommandStatus.ABANDONED }]) :=
  ⟨fun t => ⟨by simp [constNewFetch], by simp [constNewFetch]⟩,
   (c1_timeout_abandons_once constNewFetch "c1" sampleCmd
      (fun t => ⟨by simp [constNewFetch], by simp [constNewFetch]⟩)).1,
   (c1_timeout_abandons_once constNewFetch "c1" sampleCmd
      (fun t => ⟨by simp [constNewFetch], by simp [constNewFetch]⟩)).2.1⟩

/-- C4: at any polling iteration, a fetched `COMPLETED` status makes the
manager return success with no error message having performed no write and
no further effect beyond that single fetch, and a fetched `ERROR` status
makes it return a failure carrying the command's recorded error message,
again with no further polling and no write. -/
theorem c4_terminal_status_returns (fetch : Nat → Command) (id : String)
    (cmd : CommandWithContent) (elapsed : Nat) :
    ((fetch elapsed).status = CommandStatus.COMPLETED →
      pollLoop fetch id cmd elapsed =
        { response := { id := id, errors := none },
          events := [PollEvent.fetch elapsed] }) ∧
    ((fetch elapsed).status = CommandStatus.ERROR →
      pollLoop fetch id cmd elapsed =
        { response := { id := id, errors := (fetch elapsed).errors },
          events := [PollEvent.fetch elapsed] }) := by
  constructor
  · intro hc
    rw [pollLoop, if_pos hc]
  · intro he
    have hnc : (fetch elapsed).status ≠ CommandStatus.COMPLETED := by
      rw [he]; decide
    rw [pollLoop, if_neg hnc, if_pos he]

/-- Witness for C4 at a backend that reports `COMPLETED` immediately and one
that reports `ERROR` immediately. -/
theorem c4_terminal_status_returns_witness :
    ((constCompletedFetch 0).status = CommandStatus.COMPLETED ∧
     pollLoop constCompletedFetch "c1" sampleCmd 0 =
       { response := { id := "c1", errors := none },
         events := [PollEvent.fetch 0] }) ∧
    ((constErrorFetch 0).status = CommandStatus.ERROR ∧
     pollLoop constErrorFetch "c1" sampleCmd 0 =
       { response := { id := "c1", errors := some "boom" },
         events := [PollEvent.fetch 0] }) :=
  ⟨⟨rfl, (c4_terminal_status_returns constCompletedFetch "c1" sampleCmd 0).1 rfl⟩,
   ⟨rfl, (c4_terminal_status_returns constErrorFetch "c1" sampleCmd 0).2 rfl⟩⟩

/-! ## Query batch lemmas -/

/-- The batch loop of `_query` produces exactly the per-query results, in
input order: each entry depends only on its own query. -/
theorem _query_eq_map (rpc : List (String × PyVal) → Except String (List Row))
    (toUnix : String → Int) (queries : List QueryWithEmbedding) :
    (_query rpc toUnix queries).1 =
      queries.map (fun q => (processOneQuery rpc toUnix q).1) := by
  induction queries with
  | nil => rfl
  | cons q rest ih =>
      cases hr : rpc (buildQueryParams toUnix q) <;>
        simp [_query, processOneQuery, hr, ih]

/-- Every backend error raised for a query in the batch is logged. -/
theorem _query_logs_errors (rpc : List (String × PyVal) → Except String (List Row))
    (toUnix : String → Int) (queries : List QueryWithEmbedding)
    (q : QueryWithEmbedding) (e : String) (hq : q ∈ queries)
    (he : rpc (buildQueryParams toUnix q) = .error e) :
    e ∈ (_query rpc toUnix queries).2 := by
  induction queries with
  | nil => cases hq
  | cons q' rest ih =>
      rcases List.mem_cons.mp hq with h | h
      · subst h
        simp [_query, he]
      · cases hr : rpc (buildQueryParams toUnix q') <;>
          simp [_query, hr, ih h]

/-- C2: queries in a batch are processed independently — the result list has
one entry per query in input order, an entry is a function of its own query
alone, a query whose backend call errors gets an empty result entry and its
error is logged, and the batch as a whole always produces a full result
list (it never fails because of one query). -/
theorem c2_query_partial_failure_isolation
    (rpc : List (String × PyVal) → Except String (List Row))
    (toUnix : String → Int) (queries : List QueryWithEmbedding) :
    ((_query rpc toUnix queries).1.length = queries.length) ∧
    (∀ i, (_query rpc toUnix queries).1.get? i =
      (queries.get? i).map (fun q => (processOneQuery rpc toUnix q).1)) ∧
    (∀ q e, rpc (buildQueryParams toUnix q) = .error e →
      (processOneQuery rpc toUnix q).1 = { query := q.query, results := [] }) ∧
    (∀ q e, q ∈ queries → rpc (buildQueryParams toUnix q) = .error e →
      e ∈ (_query rpc toUnix queries).2) := by
  refine ⟨?_, ?_, ?_, ?_⟩
  · rw [_query_eq_map]; simp
  · intro i
    rw [_query_eq_map]
    simp [List.get?_eq_getElem?]
  · intro q e he
    simp [processOneQuery, he]
  · intro q e hq he
    exact _query_logs_errors rpc toUnix queries q e hq he

/-- A sample stored-procedure row. -/
def sampleRow : Row :=
  { id := "A", content := "hello", similarity := 9, source := some .FILE,
    source_id := none, document_id := some "doc1", url := none,
    created_at := none, author := none }

/-- A query whose backend call succeeds. -/
def goodQuery : QueryWithEmbedding := { query := "good", embedding := [1, 2] }

/-- A query whose backend call raises. -/
def badQuery : QueryWithEmbedding := { query := "bad", embedding := [3] }

/-- A backend rpc that raises exactly on `badQuery`'s parameter set. -/
def sampleRpc : List (String × PyVal) → Except String (List Row) :=
  fun params =>
    match lookupKV params "in_embedding" with
    | some (.pylist [.pyint 3]) => .error "backend hiccup"
    | _ => .ok [sampleRow]

/-- Witness for C2 on a two-query batch whose second query fails. -/
theorem c2_query_partial_failure_isolation_witness :
    (badQuery ∈ [goodQuery, badQuery] ∧
     sampleRpc (buildQueryParams (fun _ => 0) badQuery) =
       .error "backend hiccup") ∧
    ((_query sampleRpc (fun _ => 0) [goodQuery, badQuery]).1.get? 0 =
       some { query := "good", results := [rowToChunk sampleRow] } ∧
     (_query sampleRpc (fun _ => 0) [goodQuery, badQuery]).1.get? 1 =
       some { query := "bad", results := [] } ∧
     "backend hiccup" ∈ (_query sampleRpc (fun _ => 0) [goodQuery, badQuery]).2) := by
  have h := c2_query_partial_failure_isolation sampleRpc (fun _ => 0)
    [goodQuery, badQuery]
  refine ⟨⟨by simp, rfl⟩, ?_, ?_, ?_⟩
  · rw [h.2.1 0]; rfl
  · rw [h.2.1 1]; rfl
  · exact h.2.2.2 badQuery "backend hiccup" (by simp) rfl

/-- C10: `get_command` returns `None` exactly when the backend's get-by-id
call returned no rows, and otherwise builds a `Command` from the first
returned row — a missing id yields no `Command` object, not an error. -/
theorem c10_get_command_none_iff_empty (data : List Command) :
    (get_command data = none ↔ data = []) ∧
    (∀ r rest, data = r :: rest → get_command data = some r) := by
  constructor
  · cases data <;> simp [get_command]
  · intro r rest h
    subst h
    rfl

/-- A sample command row as returned by the backend. -/
def sampleCommandRow : Command :=
  { id := some "c1", status := .PROCESSING, errors := none,
    created_at := none, updated_at := none }

/-- Witness for C10 on a singleton row set and on the empty row set. -/
theorem c10_get_command_none_iff_empty_witness :
    (get_command ([] : List Command) = none ↔ ([] : List Command) = []) ∧
    ([sampleCommandRow] = sampleCommandRow :: [] ∧
     get_command [sampleCommandRow] = some sampleCommandRow) :=
  ⟨(c10_get_command_none_iff_empty []).1,
   rfl,
   (c10_get_command_none_iff_empty [sampleCommandRow]).2 sampleCommandRow [] rfl⟩

/-! ## Delete lemmas -/

/-- A `try/except`-wrapped backend delete call always issues exactly its one
call, whatever the outcome. -/
theorem runDeleteCall_snd (backend : DeleteCall → Except String Unit)
    (c : DeleteCall) : (runDeleteCall backend c).2 = [c] := by
  unfold runDeleteCall
  cases backend c <;> rfl

/-- The success flag of a wrapped backend delete call is `true` exactly when
the backend call did not raise. -/
theorem runDeleteCall_fst (backend : DeleteCall → Except String Unit)
    (c : DeleteCall) :
    (runDeleteCall backend c).1 = true ↔ backend c = .ok () := by
  unfold runDeleteCall
  cases h : backend c with
  | ok u => cases u; simp
  | error e => simp

/-- A raising backend delete call yields the flag `false`. -/
theorem runDeleteCall_raises (backend : DeleteCall → Except String Unit)
    (c : DeleteCall) (e : String) (h : backend c = .error e) :
    (runDeleteCall backend c).1 = false := by
  unfold runDeleteCall
  rw [h]

/-- C5: the delete operation executes exactly one mode, selected by the
precedence delete-all > ids > filter over the truthy arguments: a truthy
`delete_all` runs the wildcard pattern delete whatever else is supplied, a
truthy `ids` otherwise runs the id-set delete ignoring the filter, and a
supplied filter otherwise runs the filter-predicate delete; whenever at
least one truthy argument is supplied, exactly one backend call is made. -/
theorem c5_delete_mode_precedence (backend : DeleteCall → Except String Unit)
    (ids : Option (List String)) (filter : Option DocumentMetadataFilter)
    (delete_all : Option Bool) :
    (truthyBool delete_all = true →
      (delete backend ids filter delete_all).2 =
        [DeleteCall.delete_like "documents" "document_id" "%"]) ∧
    (truthyBool delete_all = false → truthyList ids = true →
      ∀ l, ids = some l →
        (delete backend ids filter delete_all).2 =
          [DeleteCall.delete_in "documents" "document_id" l]) ∧
    (truthyBool delete_all = false → truthyList ids = false →
      ∀ f, filter = some f →
        (delete backend ids filter delete_all).2 =
          [DeleteCall.delete_by_filters "documents" f]) ∧
    ((truthyBool delete_all = true ∨ truthyList ids = true ∨ filter.isSome) →
      (delete backend ids filter delete_all).2.length = 1) := by
  refine ⟨?_, ?_, ?_, ?_⟩
  · intro hda
    simp [delete, hda, runDeleteCall_snd]
  · intro hda hids l hl
    subst hl
    cases l with
    | nil => simp [truthyList] at hids
    | cons i rest => simp [delete, hda, runDeleteCall_snd]
  · intro hda hids f hf
    subst hf
    cases ids with
    | none => simp [delete, hda, runDeleteCall_snd]
    | some l =>
        cases l with
        | nil => simp [delete, hda, runDeleteCall_snd]
        | cons i rest => simp [truthyList] at hids
  · intro h
    by_cases hda : truthyBool delete_all = true
    · simp [delete, hda, runDeleteCall_snd]
    · simp only [Bool.not_eq_true] at hda
      cases ids with
      | some l =>
          cases l with
          | cons i rest => simp [delete, hda, runDeleteCall_snd]
          | nil =>
              cases filter with
              | some f => simp [delete, hda, runDeleteCall_snd]
              | none =>
                  rcases h with h | h | h
                  · simp [hda] at h
                  · simp [truthyList] at h
                  · simp at h
      | none =>
          cases filter with
          | some f => simp [delete, hda, runDeleteCall_snd]
          | none =>
              rcases h with h | h | h
              · simp [hda] at h
              · simp [truthyList] at h
              · simp at h

/-- A sample metadata filter. -/
def sampleFilter : DocumentMetadataFilter := { document_id := some "doc1" }

/-- Witness for C5: delete-all, ids and a filter all supplied at once — only
the wildcard delete runs. -/
theorem c5_delete_mode_precedence_witness :
    truthyBool (some true) = true ∧
    (delete (fun _ => .ok ()) (some ["a"]) (some sampleFilter) (some true)).2 =
      [DeleteCall.delete_like "documents" "document_id" "%"] :=
  ⟨rfl,
   (c5_delete_mode_precedence (fun _ => .ok ()) (some ["a"]) (some sampleFilter)
      (some true)).1 rfl⟩

/-- C6: whenever a delete mode is selected, the operation returns `true`
exactly when the selected mode's backend call succeeds, and returns `false`
instead of propagating when that call raises an exception. -/
theorem c6_delete_error_yields_false (backend : DeleteCall → Except String Unit)
    (ids : Option (List String)) (filter : Option DocumentMetadataFilter)
    (delete_all : Option Bool) :
    ∀ c, (delete backend ids filter delete_all).2 = [c] →
      ((delete backend ids filter delete_all).1 = true ↔ backend c = .ok ()) ∧
      (∀ e, backend c = .error e →
        (delete backend ids filter delete_all).1 = false) := by
  intro c hc
  have hrun : delete backend ids filter delete_all = runDeleteCall backend c := by
    by_cases hda : truthyBool delete_all = true
    · simp only [delete, hda, if_true] at hc ⊢
      rw [runDeleteCall_snd] at hc
      simp only [List.cons.injEq, and_true] at hc
      rw [hc]
    · simp only [Bool.not_eq_true] at hda
      cases ids with
      | some l =>
          cases l with
          | cons i rest =>
              simp only [delete, hda, Bool.false_eq_true, if_false] at hc ⊢
              rw [runDeleteCall_snd] at hc
              simp only [List.cons.injEq, and_true] at hc
              rw [hc]
          | nil =>
              cases filter with
              | some f =>
                  simp only [delete, hda, Bool.false_eq_true, if_false] at hc ⊢
                  rw [runDeleteCall_snd] at hc
                  simp only [List.cons.injEq, and_true] at hc
                  rw [hc]
              | none => simp [delete, hda] at hc
      | none =>
          cases filter with
          | some f =>
              simp only [delete, hda, Bool.false_eq_true, if_false] at hc ⊢
              rw [runDeleteCall_snd] at hc
              simp only [List.cons.injEq, and_true] at hc
              rw [hc]
          | none => simp [delete, hda] at hc
  rw [hrun]
  exact ⟨runDeleteCall_fst backend c, fun e he => runDeleteCall_raises backend c e he⟩

/-- Witness for C6: a raising backend makes a delete-all return `false`; a
succeeding backend makes it return `true`. -/
theorem c6_delete_error_yields_false_witness :
    ((delete (fun _ => .error "down") none none (some true)).2 =
       [DeleteCall.delete_like "documents" "document_id" "%"] ∧
     (delete (fun _ => .error "down") none none (some true)).1 = false) ∧
    ((delete (fun _ => .ok ()) none none (some true)).1 = true) :=
  ⟨⟨rfl,
    (c6_delete_error_yields_false (fun _ => .error "down") none none (some true)
       (DeleteCall.delete_like "documents" "document_id" "%") rfl).2 "down" rfl⟩,
   (c6_delete_error_yields_false (fun _ => .ok ()) none none (some true)
       (DeleteCall.delete_like "documents" "document_id" "%") rfl).1.mpr rfl⟩

/-- C9: when `delete_all`, `ids` and `filter` are all absent (`None` or the
empty id list), no backend delete call is made and the operation still
returns `true`. -/
theorem c9_delete_noop_returns_true (backend : DeleteCall → Except String Unit)
    (ids : Option (List String)) (filter : Option DocumentMetadataFilter)
    (delete_all : Option Bool)
    (hda : delete_all = none) (hids : ids = none ∨ ids = some [])
    (hf : filter = none) :
    delete backend ids filter delete_all = (true, []) := by
  subst hda
  subst hf
  rcases hids with h | h <;> subst h <;> rfl

/-- Witness for C9 with an always-raising backend and an empty id list: no
call is made, and the result is still success. -/
theorem c9_delete_noop_returns_true_witness :
    ((some ([] : List String) = none ∨ some ([] : List String) = some []) ∧
     (none : Option DocumentMetadataFilter) = none) ∧
    delete (fun _ => .error "down") (some []) none none = (true, []) :=
  ⟨⟨Or.inr rfl, rfl⟩,
   c9_delete_noop_returns_true (fun _ => .error "down") (some []) none none
     rfl (Or.inr rfl) rfl⟩

/-! ## Upsert lemmas -/

/-- The inner chunk loop succeeds exactly when every chunk's client call
succeeds. -/
theorem upsertChunks_ok_iff
    (clientUpsert : String → List (String × PyVal) → Except String Unit)
    (toUnix : String → Int) (d : String) (cs : List DocumentChunk) :
    upsertChunks clientUpsert toUnix d cs = .ok () ↔
      ∀ ch ∈ cs, clientUpsert "documents" (chunkRow toUnix d ch) = .ok () := by
  induction cs with
  | nil => simp [upsertChunks]
  | cons c rest ih =>
      cases h : clientUpsert "documents" (chunkRow toUnix d c) with
      | ok u => cases u; simp [upsertChunks, h, ih]
      | error e => simp [upsertChunks, h]

/-- An error returned by the inner chunk loop is an error raised by the
client call of one of its chunks. -/
theorem upsertChunks_error
    (clientUpsert : String → List (String × PyVal) → Except String Unit)
    (toUnix : String → Int) (d : String) (cs : List DocumentChunk) (e : String)
    (h : upsertChunks clientUpsert toUnix d cs = .error e) :
    ∃ ch ∈ cs, clientUpsert "documents" (chunkRow toUnix d ch) = .error e := by
  induction cs with
  | nil => simp [upsertChunks] at h
  | cons c rest ih =>
      simp only [upsertChunks] at h
      cases hcall : clientUpsert "documents" (chunkRow toUnix d c) with
      | ok u =>
          rw [hcall] at h
          obtain ⟨ch, hmem, hch⟩ := ih h
          exact ⟨ch, List.mem_cons_of_mem c hmem, hch⟩
      | error e' =>
          rw [hcall] at h
          cases h
          exact ⟨c, List.mem_cons_self c rest, hcall⟩

/-- The outer document loop succeeds exactly when every chunk write of every
document succeeds. -/
theorem upsertDocs_ok_iff
    (clientUpsert : String → List (String × PyVal) → Except String Unit)
    (toUnix : String → Int) (chunks : List (String × List DocumentChunk)) :
    upsertDocs clientUpsert toUnix chunks = .ok () ↔
      ∀ d cs, (d, cs) ∈ chunks →
        ∀ ch ∈ cs, clientUpsert "documents" (chunkRow toUnix d ch) = .ok () := by
  induction chunks with
  | nil => simp [upsertDocs]
  | cons p rest ih =>
      obtain ⟨d, cs⟩ := p
      cases h : upsertChunks clientUpsert toUnix d cs with
      | ok u =>
          cases u
          simp only [upsertDocs, h]
          rw [ih]
          have hchunks := (upsertChunks_ok_iff clientUpsert toUnix d cs).mp h
          constructor
          · intro hall d' cs' hmem
            rcases List.mem_cons.mp hmem with heq | hmem'
            · cases heq; exact hchunks
            · exact hall d' cs' hmem'
          · intro hall d' cs' hmem'
            exact hall d' cs' (List.mem_cons_of_mem _ hmem')
      | error e =>
          simp only [upsertDocs, h]
          constructor
          · intro hfalse; cases hfalse
          · intro hall
            exfalso
            have : upsertChunks clientUpsert toUnix d cs = .ok () := by
              rw [upsertChunks_ok_iff]
              exact hall d cs (List.mem_cons_self _ _)
            rw [this] at h
            cases h

/-- An error returned by the outer document loop is an error raised by the
client call for one of the chunks. -/
theorem upsertDocs_error
    (clientUpsert : String → List (String × PyVal) → Except String Unit)
    (toUnix : String → Int) (chunks : List (String × List DocumentChunk))
    (e : String) (h : upsertDocs clientUpsert toUnix chunks = .error e) :
    ∃ d cs, (d, cs) ∈ chunks ∧ ∃ ch ∈ cs,
      clientUpsert "documents" (chunkRow toUnix d ch) = .error e := by
  induction chunks with
  | nil => simp [upsertDocs] at h
  | cons p rest ih =>
      obtain ⟨d, cs⟩ := p
      simp only [upsertDocs] at h
      cases hchunks : upsertChunks clientUpsert toUnix d cs with
      | ok u =>
          cases u
          rw [hchunks] at h
          obtain ⟨d', cs', hmem, hch⟩ := ih h
          exact ⟨d', cs', List.mem_cons_of_mem _ hmem, hch⟩
      | error e' =>
          rw [hchunks] at h
          cases h
          obtain ⟨ch, hmem, hch⟩ :=
            upsertChunks_error clientUpsert toUnix d cs e hchunks
          exact ⟨d, cs, List.mem_cons_self _ _, ch, hmem, hch⟩

/-- The `SupabaseClient`, wrapped as the abstract client-upsert capability
consumed by `PgVectorDataStore._upsert`: the table name is passed through
and the trace of transmitted payloads/logs is discarded, keeping only
whether an exception escaped. -/
def supabaseClientUpsert
    (execute : List (String × PyVal) → Except String Unit) :
    String → List (String × PyVal) → Except String Unit :=
  fun _table json =>
    match supabaseUpsert execute json with
    | .ok _ => .ok ()
    | .error e => .error e

/-- A sample chunk with minimal metadata. -/
def sampleChunk : DocumentChunk :=
  { id := some "A", text := "hello", metadata := {}, embedding := some [1, 2] }

/-- C3 counterexample: with the concrete Supabase client, a backend transport
error during the individual chunk write (`execute` always raises "network
down") is caught and logged inside `SupabaseClient.upsert`, so the whole
upsert of one document still returns the document-id list successfully —
the error does not propagate to the caller as an operation failure. -/
theorem c3_upsert_swallows_transport_error_counterexample :
    _upsert (supabaseClientUpsert (fun _ => .error "network down"))
      (fun _ => 0) [("doc1", [sampleChunk])] = .ok ["doc1"] := by
  rfl

/-- C3 (amended): at the facade layer, `PgVectorDataStore._upsert` performs
no local recovery — it returns the processed document ids exactly when every
individual chunk write succeeded, and any error it returns is precisely an
error raised by the abstract client call for one of the chunks.  The
concrete `SupabaseClient.upsert`, however, catches and logs exceptions from
its backend call, so with that client a transport error never reaches the
facade (see the counterexample). -/
theorem c3_upsert_error_through_facade
    (clientUpsert : String → List (String × PyVal) → Except String Unit)
    (toUnix : String → Int) (chunks : List (String × List DocumentChunk)) :
    (_upsert clientUpsert toUnix chunks = .ok (chunks.map Prod.fst) ↔
      ∀ d cs, (d, cs) ∈ chunks →
        ∀ ch ∈ cs, clientUpsert "documents" (chunkRow toUnix d ch) = .ok ()) ∧
    (∀ e, _upsert clientUpsert toUnix chunks = .error e →
      ∃ d cs, (d, cs) ∈ chunks ∧ ∃ ch ∈ cs,
        clientUpsert "documents" (chunkRow toUnix d ch) = .error e) := by
  constructor
  · rw [← upsertDocs_ok_iff clientUpsert toUnix chunks]
    unfold _upsert
    cases h : upsertDocs clientUpsert toUnix chunks with
    | ok u => cases u; simp
    | error e => simp
  · intro e he
    unfold _upsert at he
    cases h : upsertDocs clientUpsert toUnix chunks with
    | ok u => rw [h] at he; cases he
    | error e' =>
        rw [h] at he
        cases he
        exact upsertDocs_error clientUpsert toUnix chunks e h

/-- Witness for the amended C3: a client that raises on every call makes the
facade-level upsert propagate that error. -/
theorem c3_upsert_error_through_facade_witness :
    _upsert (fun _ _ => (.error "boom" : Except String Unit)) (fun _ => 0)
        [("doc1", [sampleChunk])] = .error "boom" ∧
    ∃ d cs, (d, cs) ∈ [("doc1", [sampleChunk])] ∧ ∃ ch ∈ cs,
      (fun (_ : String) (_ : List (String × PyVal)) =>
        (.error "boom" : Except String Unit)) "documents"
          (chunkRow (fun _ => 0) d ch) = .error "boom" :=
  ⟨rfl,
   (c3_upsert_error_through_facade
      (fun _ _ => (.error "boom" : Except String Unit)) (fun _ => 0)
      [("doc1", [sampleChunk])]).2 "boom" rfl⟩

/-! ## Filter translation lemmas -/

/-- Parameter-name count contributed by a conditional single entry. -/
theorem count_optEntry (c : Bool) (name k : String) (v : PyVal) :
    ((optEntry c name v).map Prod.fst).count k =
      if c ∧ name = k then 1 else 0 := by
  cases c <;> by_cases hk : name = k <;>
    simp [optEntry, hk, List.count_cons]

/-- Parameter-name count contributed by the `in_source` branch. -/
theorem count_sourceEntry (f : Option Source) (k : String) :
    ((match f with
      | some s => [("in_source", PyVal.pystr s.value)]
      | none => ([] : List (String × PyVal))).map Prod.fst).count k =
      if f.isSome ∧ "in_source" = k then 1 else 0 := by
  cases f <;> by_cases hk : "in_source" = k <;> simp [hk, List.count_cons]

/-- Parameter-name count contributed by a date branch of the query path. -/
theorem count_dateEntry (d : Option String) (name k : String) (v : String → PyVal) :
    ((match d with
      | some s =>
          if s = "" then ([] : List (String × PyVal)) else [(name, v s)]
      | none => ([] : List (String × PyVal))).map Prod.fst).count k =
      if truthyStr d ∧ name = k then 1 else 0 := by
  cases d with
  | none => simp [truthyStr]
  | some s =>
      by_cases hs : s = "" <;> by_cases hk : name = k <;>
        simp [truthyStr, hs, hk, List.count_cons]

/-- The column a delete-builder predicate constrains. -/
def predColumn : DeletePred → String
  | .eqPred c _ => c
  | .gtePred c _ => c
  | .ltePred c _ => c

/-- Column count contributed by a conditional `eq` predicate. -/
theorem count_predEntry (c : Bool) (col k : String) (v : PyVal) :
    ((if c then [DeletePred.eqPred col v] else []).map predColumn).count k =
      if c ∧ col = k then 1 else 0 := by
  cases c <;> by_cases hk : col = k <;>
    simp [predColumn, hk, List.count_cons]

/-- Column count contributed by the `source` branch of the delete builder. -/
theorem count_predSource (f : Option Source) (k : String) :
    ((match f with
      | some s => [DeletePred.eqPred "source" (.pyenum s.value)]
      | none => ([] : List DeletePred)).map predColumn).count k =
      if f.isSome ∧ "source" = k then 1 else 0 := by
  cases f <;> by_cases hk : "source" = k <;>
    simp [predColumn, hk, List.count_cons]

/-- C7 counterexample: the filter whose `document_id` is the empty string is
present (non-null) on the filter, yet the query-parameter translation emits
no `in_document_id` parameter for it — Python truthiness skips empty
strings, so "present (non-null)" does not imply "parameter emitted". -/
theorem c7_present_field_not_emitted_counterexample :
    ({ document_id := some "" } : DocumentMetadataFilter).document_id ≠ none ∧
    "in_document_id" ∉
      (buildQueryParams (fun _ => 0)
        { query := "q", filter := some { document_id := some "" },
          embedding := [1] }).map Prod.fst := by
  constructor
  · simp
  · decide

/-- C7 (amended): the filter translation emits a named parameter for a field
exactly when that field is truthy — non-null and, for strings, non-empty —
and each recognized field maps to exactly one named parameter (its count in
the emitted parameter set is one when truthy, zero otherwise).  This holds
for the query-parameter path, and for the delete-predicate path on the four
equality fields provided no date bound is truthy; a truthy `start_date` or
`end_date` on the delete path instead raises before any predicate set is
produced (the source indexes the date string and calls `isoformat` on a
character). -/
theorem c7_filter_translation_truthy_fields (toUnix : String → Int)
    (q : QueryWithEmbedding) (f : DocumentMetadataFilter)
    (hf : q.filter = some f) :
    (((buildQueryParams toUnix q).map Prod.fst).count "in_document_id" =
       if truthyStr f.document_id then 1 else 0) ∧
    (((buildQueryParams toUnix q).map Prod.fst).count "in_source" =
       if f.source.isSome then 1 else 0) ∧
    (((buildQueryParams toUnix q).map Prod.fst).count "in_source_id" =
       if truthyStr f.source_id then 1 else 0) ∧
    (((buildQueryParams toUnix q).map Prod.fst).count "in_author" =
       if truthyStr f.author then 1 else 0) ∧
    (((buildQueryParams toUnix q).map Prod.fst).count "in_start_date" =
       if truthyStr f.start_date then 1 else 0) ∧
    (((buildQueryParams toUnix q).map Prod.fst).count "in_end_date" =
       if truthyStr f.end_date then 1 else 0) ∧
    (truthyStr f.start_date = false → truthyStr f.end_date = false →
      ∃ preds, delete_by_filters f = .ok preds ∧
        ((preds.map predColumn).count "document_id" =
           if truthyStr f.document_id then 1 else 0) ∧
        ((preds.map predColumn).count "source" =
           if f.source.isSome then 1 else 0) ∧
        ((preds.map predColumn).count "source_id" =
           if truthyStr f.source_id then 1 else 0) ∧
        ((preds.map predColumn).count "author" =
           if truthyStr f.author then 1 else 0) ∧
        (preds.map predColumn).count "created_at" = 0) ∧
    ((truthyStr f.start_date = true ∨ truthyStr f.end_date = true) →
      ∃ e, delete_by_filters f = .error e) := by
  refine ⟨?_, ?_, ?_, ?_, ?_, ?_, ?_, ?_⟩
  · simp [buildQueryParams, filterParams, hf, List.count_append,
      count_optEntry, count_sourceEntry, count_dateEntry, List.count_cons]
  · simp [buildQueryParams, filterParams, hf, List.count_append,
      count_optEntry, count_sourceEntry, count_dateEntry, List.count_cons]
  · simp [buildQueryParams, filterParams, hf, List.count_append,
      count_optEntry, count_sourceEntry, count_dateEntry, List.count_cons]
  · simp [buildQueryParams, filterParams, hf, List.count_append,
      count_optEntry, count_sourceEntry, count_dateEntry, List.count_cons]
  · simp [buildQueryParams, filterParams, hf, List.count_append,
      count_optEntry, count_sourceEntry, count_dateEntry, List.count_cons]
  · simp [buildQueryParams, filterParams, hf, List.count_append,
      count_optEntry, count_sourceEntry, count_dateEntry, List.count_cons]
  · intro hs he
    refine ⟨(if truthyStr f.document_id then
            [DeletePred.eqPred "document_id" (optStr f.document_id)] else []) ++
         (match f.source with
          | some s => [DeletePred.eqPred "source" (.pyenum s.value)]
          | none => []) ++
         (if truthyStr f.source_id then
            [DeletePred.eqPred "source_id" (optStr f.source_id)] else []) ++
         (if truthyStr f.author then
            [DeletePred.eqPred "author" (optStr f.author)] else []),
      ?_, ?_, ?_, ?_, ?_, ?_⟩
    · simp [delete_by_filters, hs, he]
    · simp [List.count_append, count_predEntry, count_predSource]
    · simp [List.count_append, count_predEntry, count_predSource]
    · simp [List.count_append, count_predEntry, count_predSource]
    · simp [List.count_append, count_predEntry, count_predSource]
    · simp [List.count_append, count_predEntry, count_predSource]
  · intro h
    by_cases hs : truthyStr f.start_date = true
    · exact ⟨"AttributeError: str object has no attribute isoformat",
        by simp [delete_by_filters, hs]⟩
    · simp only [Bool.not_eq_true] at hs
      rcases h with h | h
      · simp [hs] at h
      · exact ⟨"AttributeError: str object has no attribute isoformat",
          by simp [delete_by_filters, hs, h]⟩

/-- Witness for the amended C7 at a filter whose `document_id` and
`start_date` are set and whose other fields are absent. -/
theorem c7_filter_translation_truthy_fields_witness :
    (({ query := "q", filter := some { document_id := some "doc1" },
        embedding := [1] } : QueryWithEmbedding).filter =
      some { document_id := some "doc1" } ∧
     ((buildQueryParams (fun _ => 0)
        { query := "q", filter := some { document_id := some "doc1" },
          embedding := [1] }).map Prod.fst).count "in_document_id" = 1) ∧
    (∃ e, delete_by_filters
      { document_id := some "doc1", start_date := some "2023-01-01" } =
        .error e) := by
  constructor
  · refine ⟨rfl, ?_⟩
    have h := (c7_filter_translation_truthy_fields (fun _ => 0)
      { query := "q", filter := some { document_id := some "doc1" },
        embedding := [1] } { document_id := some "doc1" } rfl).1
    rw [h]
    rfl
  · exact (c7_filter_translation_truthy_fields (fun _ => 0)
      { query := "q2",
        filter := some { document_id := some "doc1",
                         start_date := some "2023-01-01" },
        embedding := [1] }
      { document_id := some "doc1", start_date := some "2023-01-01" }
      rfl).2.2.2.2.2.2.2 (Or.inl rfl)

/-! ## Serialization adapter lemmas -/

/-- Conversion never turns a non-`None` value into `None`. -/
theorem _convert_ne_none (v : PyVal) (h : isPyNone v = false) :
    isPyNone (_convert_object_to_serializable_json v) = false := by
  cases v <;> simp_all [_convert_object_to_serializable_json, isPyNone]

mutual

/-- The adapter output is serializable: no enum member and no `None`-valued
dict field is reachable through dicts and lists. -/
theorem serializedOk_convert :
    ∀ v : PyVal, serializedOk (_convert_object_to_serializable_json v) = true
  | .pynone => rfl
  | .pystr _ => rfl
  | .pyint _ => rfl
  | .pybool _ => rfl
  | .pyenum _ => rfl
  | .pydatetime _ => rfl
  | .pytuple _ => rfl
  | .pylist xs => by
      rw [show _convert_object_to_serializable_json (.pylist xs) =
            .pylist (_convert_list xs) from rfl]
      rw [show serializedOk (.pylist (_convert_list xs)) =
            serializedOkList (_convert_list xs) from rfl]
      exact serializedOkList_convert xs
  | .pydict kvs => by
      rw [show _convert_object_to_serializable_json (.pydict kvs) =
            .pydict (_convert_kvs kvs) from rfl]
      rw [show serializedOk (.pydict (_convert_kvs kvs)) =
            serializedOkKVs (_convert_kvs kvs) from rfl]
      exact serializedOkKVs_convert kvs

/-- List branch of `serializedOk_convert`. -/
theorem serializedOkList_convert :
    ∀ xs : List PyVal, serializedOkList (_convert_list xs) = true
  | [] => rfl
  | v :: rest => by
      rw [show _convert_list (v :: rest) =
            _convert_object_to_serializable_json v :: _convert_list rest from rfl]
      rw [show serializedOkList
            (_convert_object_to_serializable_json v :: _convert_list rest) =
          (serializedOk (_convert_object_to_serializable_json v) &&
           serializedOkList (_convert_list rest)) from rfl]
      rw [serializedOk_convert v, serializedOkList_convert rest]
      rfl

/-- Dict branch of `serializedOk_convert`. -/
theorem serializedOkKVs_convert :
    ∀ kvs : List (String × PyVal), serializedOkKVs (_convert_kvs kvs) = true
  | [] => rfl
  | (k, v) :: rest => by
      by_cases h : isPyNone v = true
      · rw [show _convert_kvs ((k, v) :: rest) =
              if isPyNone v then _convert_kvs rest
              else (k, _convert_object_to_serializable_json v) ::
                _convert_kvs rest from rfl]
        rw [if_pos h]
        exact serializedOkKVs_convert rest
      · simp only [Bool.not_eq_true] at h
        rw [show _convert_kvs ((k, v) :: rest) =
              if isPyNone v then _convert_kvs rest
              else (k, _convert_object_to_serializable_json v) ::
                _convert_kvs rest from rfl]
        rw [if_neg (by simp [h])]
        rw [show serializedOkKVs ((k, _convert_object_to_serializable_json v) ::
              _convert_kvs rest) =
            (!isPyNone (_convert_object_to_serializable_json v) &&
             serializedOk (_convert_object_to_serializable_json v) &&
             serializedOkKVs (_convert_kvs rest)) from rfl]
        rw [_convert_ne_none v h, serializedOk_convert v,
            serializedOkKVs_convert rest]
        rfl

end

/-- A write payload containing a timestamp nested inside a record. -/
def nestedTimestampJson : List (String × PyVal) :=
  [("id", .pystr "x"), ("meta", .pydict [("created_at", .pydatetime 7)])]

/-- C8 counterexample: a record with a nested timestamp field passed to the
upsert write operation is transmitted to the backend with the timestamp
still a `datetime` value — neither the recursive adapter (which handles only
enum flattening and null dropping) nor the upsert's `created_at` special
case (which looks only at the top-level key) rewrites it to a canonical
string form. -/
theorem c8_nested_timestamp_not_serialized_counterexample :
    supabaseUpsert (fun _ => .ok ()) nestedTimestampJson =
      .ok (nestedTimestampJson, []) ∧
    hasTimestamp (.pydict nestedTimestampJson) = true :=
  ⟨rfl, rfl⟩

/-- C8 (amended): the Serialization Adapter recursively rewrites records and
sequences so that enum-valued fields become their underlying scalar value
and null-valued fields are dropped from records — its output contains no
enum member and no null-valued record field reachable through records and
sequences.  Timestamp fields are NOT rewritten by the adapter: only the
upsert path converts a timestamp to its canonical string form, and only for
the top-level `created_at` key, whose stored tuple's first element is
isoformatted; nested timestamps (and anything inside tuples) are
transmitted unchanged (see the counterexample). -/
theorem c8_adapter_flattens_enums_drops_nulls :
    (∀ v : PyVal,
      serializedOk (_convert_object_to_serializable_json v) = true) ∧
    (∀ s : String,
      _convert_object_to_serializable_json (.pyenum s) = .pystr s) ∧
    (∀ (kvs : List (String × PyVal)) (t : Int) (rest : List PyVal),
      lookupKV kvs "created_at" = some (.pytuple (.pydatetime t :: rest)) →
      fixCreatedAt kvs = .ok (setKV kvs "created_at" (.pystr (isoformat t)))) := by
  refine ⟨serializedOk_convert, fun s => rfl, ?_⟩
  intro kvs t rest h
  simp [fixCreatedAt, h]

/-- Witness for the amended C8: a concrete nested payload with an enum and a
null field, and a top-level `created_at` tuple that gets isoformatted. -/
theorem c8_adapter_flattens_enums_drops_nulls_witness :
    serializedOk (_convert_object_to_serializable_json
      (.pydict [("source", .pyenum "EMAIL"), ("url", .pynone),
                ("meta", .pydict [("author", .pynone)])])) = true ∧
    lookupKV [("id", .pystr "c"), ("created_at", .pytuple [.pydatetime 5])]
        "created_at" = some (.pytuple (.pydatetime 5 :: [])) ∧
    fixCreatedAt [("id", .pystr "c"), ("created_at", .pytuple [.pydatetime 5])] =
      .ok [("id", .pystr "c"), ("created_at", .pystr (isoformat 5))] :=
  ⟨(c8_adapter_flattens_enums_drops_nulls).1 _,
   rfl,
   (c8_adapter_flattens_enums_drops_nulls).2.2
     [("id", .pystr "c"), ("created_at", .pytuple [.pydatetime 5])] 5 [] rfl⟩
